import Mathlib

/-!
Shallow embedding of the timesheet web application / Telegram bot
(`src/timesheet_webapp/app.py` and `src/timesheet_webapp/pdf_generator.py`)
and proofs about the claims of the specification.

Modelling conventions:
* Calendar dates are represented by their proleptic-Gregorian ordinal
  (`datetime.date.toordinal` in Python: day 1 = 0001-01-01, which is a
  Monday).  Python `YYYY-MM-DD` strings correspond bijectively to
  ordinals for valid dates, `timedelta(days = n)` is ordinal addition,
  and `strftime/strptime` round-trips are the identity.
* Python `datetime` values (which carry a time of day) are modelled as
  a pair of a date ordinal and a fractional time of day; `datetime`
  comparison is lexicographic on that pair, and subtracting
  `timedelta(days = n)` shifts the date component.
* Python floats are modelled as exact rationals (`ℚ`).  All numeric
  literals appearing in the program and the claims (3.5, 3.0, 60, ...)
  are exactly representable, so no rounding behaviour is lost.
* JSON dictionaries are modelled as insertion-ordered association lists
  (Python dicts preserve insertion order); a lookup takes the first
  (unique) matching key, and an update keeps the key position.
* The string-display-only fields of the data (day names, `%B %d, %Y`
  formats, reply texts) are elided; replies are modelled by inductive
  types with one constructor per distinct reply of the source.
-/

namespace Timesheet

/-! ### Python string primitives (ASCII fragment used by the program) -/

/-- Python whitespace (the ASCII characters matched by `str.strip`,
`str.split()` and the regex class `\s`). -/
def pyIsSpace (c : Char) : Bool :=
  c = ' ' || c = '\t' || c = '\n' || c = '\r' || c = '\x0b' || c = '\x0c'

/-- Python `str.lower` (ASCII). -/
def lowerStr (s : String) : String :=
  String.mk (s.data.map Char.toLower)

/-- Python `str.strip()` on a character list. -/
def pyStripList (cs : List Char) : List Char :=
  ((cs.dropWhile pyIsSpace).reverse.dropWhile pyIsSpace).reverse

/-- Python `str.strip()`. -/
def pyStrip (s : String) : String :=
  String.mk (pyStripList s.data)

/-- Helper for `pySplit`: split on whitespace runs, dropping empty parts
(fuel-driven recursion; the fuel is the length of the list). -/
def pySplitAux : Nat → List Char → List (List Char)
  | 0, _ => []
  | _ + 1, [] => []
  | n + 1, c :: cs =>
    if pyIsSpace c then pySplitAux n cs
    else ((c :: cs).takeWhile (fun x => !pyIsSpace x)) ::
      pySplitAux n (List.dropWhile (fun x => !pyIsSpace x) cs)

/-- Python `str.split()` (no separator argument): split on whitespace
runs, with no empty tokens. -/
def pySplit (s : String) : List String :=
  (pySplitAux (s.data.length + 1) s.data).map String.mk

/-- Split a character list on a separator character, keeping empty
parts (Python `str.split(sep)` semantics, as used to dissect
`YYYY-MM-DD`). -/
def splitOnAux (sep : Char) : List Char → List Char → List (List Char)
  | [], acc => [acc.reverse]
  | c :: cs, acc =>
    if c = sep then acc.reverse :: splitOnAux sep cs []
    else splitOnAux sep cs (c :: acc)

def splitOnChar (sep : Char) (cs : List Char) : List (List Char) :=
  splitOnAux sep cs []

/-- Does `pat` occur at the head of `cs` (case-sensitive)? -/
def listLeading : List Char → List Char → Bool
  | [], _ => true
  | _ :: _, [] => false
  | p :: ps, c :: cs => p = c && listLeading ps cs

/-- Python `needle in haystack` substring test. -/
def containsSub (needle : List Char) : List Char → Bool
  | [] => needle.isEmpty
  | c :: cs => listLeading needle (c :: cs) || containsSub needle cs

/-- Case-insensitive literal match: consume `pat` (given lowercase) from
the head of `cs`, returning the remainder. -/
def stripCI : List Char → List Char → Option (List Char)
  | [], cs => some cs
  | _ :: _, [] => none
  | p :: ps, c :: cs => if Char.toLower c = p then stripCI ps cs else none

/-- The numeric value of a digit string. -/
def natOfDigits (ds : List Char) : Nat :=
  ds.foldl (fun a c => a * 10 + (c.toNat - '0'.toNat)) 0

/-! ### Calendar (the fragment of Python `datetime` used by the program)

`rataDie y m d` is `datetime.date(y, m, d).toordinal()`. -/

def isLeap (y : Nat) : Bool :=
  (y % 4 = 0 && y % 100 ≠ 0) || y % 400 = 0

def daysInMonth (y m : Nat) : Nat :=
  if m = 2 then (if isLeap y then 29 else 28)
  else if m = 4 || m = 6 || m = 9 || m = 11 then 30
  else 31

/-- Cumulative day counts before each month in a non-leap year. -/
def daysBeforeMonth (y m : Nat) : Nat :=
  (match m with
   | 1 => 0 | 2 => 31 | 3 => 59 | 4 => 90 | 5 => 120 | 6 => 151
   | 7 => 181 | 8 => 212 | 9 => 243 | 10 => 273 | 11 => 304 | _ => 334)
  + (if 2 < m && isLeap y then 1 else 0)

/-- Proleptic Gregorian ordinal of a calendar date
(= Python `date.toordinal()`; day 1 is 0001-01-01, a Monday). -/
def rataDie (y m d : Nat) : Nat :=
  365 * (y - 1) + (y - 1) / 4 - (y - 1) / 100 + (y - 1) / 400
    + daysBeforeMonth y m + d

/-- Range validity of a calendar date, as enforced by `datetime`. -/
def validYMD (y m d : Nat) : Bool :=
  1 ≤ y && y ≤ 9999 && 1 ≤ m && m ≤ 12 && 1 ≤ d && d ≤ daysInMonth y m

def daysInYear (y : Nat) : Nat := if isLeap y then 366 else 365

/-- Helper for `yearOfOrdinal` (fuel = upper bound on the year). -/
def yearOfAux : Nat → Nat → Nat → Nat
  | 0, y, _ => y
  | fuel + 1, y, r =>
    if r < daysInYear y then y else yearOfAux fuel (y + 1) (r - daysInYear y)

/-- The calendar year containing a given ordinal
(= `datetime.date.fromordinal(rd).year`; used for `datetime.now().year`). -/
def yearOfOrdinal (rd : Nat) : Nat :=
  yearOfAux 10000 1 (rd - 1)

/-- Python `date.weekday()`: 0 = Monday .. 6 = Sunday.  Ordinal 1
(0001-01-01) is a Monday. -/
def pyWeekday (d : Int) : Int := (d + 6) % 7

/-- A Python `datetime`: date ordinal plus fraction of the day elapsed
(`0 ≤ frac < 1` for values produced by `datetime.now()`; a parsed date
has `frac = 0`, i.e. midnight). -/
structure PyDateTime where
  day : Int
  frac : ℚ
deriving DecidableEq

/-- `datetime` comparison (lexicographic on date, then time of day). -/
def dtLt (a b : PyDateTime) : Bool :=
  a.day < b.day || (a.day = b.day && decide (a.frac < b.frac))

/-- `dt - timedelta(days = n)`. -/
def dtSubDays (a : PyDateTime) (n : Int) : PyDateTime :=
  ⟨a.day - n, a.frac⟩

/-- A parsed date as a `datetime` (midnight). -/
def dtOfDate (d : Int) : PyDateTime := ⟨d, 0⟩

/-- The Monday key of the week containing `d`
(`target_date - timedelta(days=target_date.weekday())`, `app.py` line 75). -/
def weekKeyOf (d : Int) : Int := d - pyWeekday d

/-- `get_week_dates` (`app.py` lines 64-67): the 7 ordinals
Monday..Sunday of the week with key `weekKey`. -/
def weekDates (weekKey : Int) : List Int :=
  (List.range 7).map (fun i => weekKey + (i : Int))

/-! ### The Activity Store

`lab_activities.json`: week key (Monday ordinal) → date ordinal →
ordered list of activity entries. -/

/-- One logged activity entry (the dict built in `add_activity`,
`app.py` lines 85-91).  `hours = none` models the *absence* of the
`'hours'` key; `timestamp` models `datetime.now().isoformat()`. -/
structure ActivityEntry where
  activity : String
  timestamp : PyDateTime
  hours : Option ℚ
deriving DecidableEq

abbrev DayBucket := List ActivityEntry
abbrev WeekRecord := List (Int × DayBucket)
abbrev Store := List (Int × WeekRecord)

instance : DecidableEq DayBucket := inferInstance

instance : DecidableEq WeekRecord := inferInstance

instance : DecidableEq Store := inferInstance

/-- Dict lookup (first matching key; keys are unique by construction). -/
def getA {β : Type} : List (Int × β) → Int → Option β
  | [], _ => none
  | (k, v) :: t, key => if k = key then some v else getA t key

/-- Dict update: replace in place if the key exists, else append
(Python insertion-order semantics). -/
def setA {β : Type} : List (Int × β) → Int → β → List (Int × β)
  | [], key, v => [(key, v)]
  | (k, w) :: t, key, v =>
    if k = key then (k, v) :: t else (k, w) :: setA t key v

/-- The `'hours'` key is written only when the Python value is truthy:
`if hours: activity_entry['hours'] = hours` (`app.py` lines 90-91).
`0` and `None` are falsy, so neither stores the key. -/
def storedHours : Option ℚ → Option ℚ
  | some h => if h = 0 then none else some h
  | none => none

/-- `TimesheetManager.add_activity` (`app.py` lines 69-96), with the
date already parsed to an ordinal and `now` passed explicitly. -/
def add_activity (store : Store) (d : Int) (activity_text : String)
    (hours : Option ℚ) (now : PyDateTime) : Store :=
  let week_key := weekKeyOf d
  let week := (getA store week_key).getD []
  let bucket := (getA week d).getD []
  let entry : ActivityEntry :=
    { activity := activity_text, timestamp := now, hours := storedHours hours }
  setA store week_key (setA week d (bucket ++ [entry]))

/-- Sum of hours over a bucket: `sum(act.get('hours', 0) for act in ...)`. -/
def sumHours (b : DayBucket) : ℚ :=
  (b.map (fun e => e.hours.getD 0)).sum

/-- One element of the `days` list built by `get_week_data`
(`app.py` lines 112-121); the display-only fields
(`day_name`, `display_date`) are elided. -/
structure DayData where
  date : Int
  activities : DayBucket
  totalHours : ℚ
deriving DecidableEq

/-- `TimesheetManager.get_week_data` (`app.py` lines 98-123), for an
explicit week key. -/
def get_week_data (store : Store) (week_key : Int) : List DayData :=
  let week_data := (getA store week_key).getD []
  (weekDates week_key).map (fun d =>
    { date := d
      activities := (getA week_data d).getD []
      totalHours := sumHours ((getA week_data d).getD []) })

/-- `TimesheetManager.delete_activity` (`app.py` lines 157-165).
Returns the success flag and the resulting store. -/
def delete_activity (store : Store) (week_key d : Int) (activity_index : Int) :
    Bool × Store :=
  match getA store week_key with
  | none => (false, store)
  | some week =>
    match getA week d with
    | none => (false, store)
    | some bucket =>
      if 0 ≤ activity_index ∧ activity_index < (bucket.length : Int) then
        (true, setA store week_key
          (setA week d (bucket.eraseIdx activity_index.toNat)))
      else (false, store)

/-! ### Hour extraction (`pdf_generator.py` lines 268-280, duplicated at 237-249)

The search regex is `(\d+\.?\d*)\s*(hours?|h)` applied to the lowered
text; the removal regex is `\d+\.?\d*\s*hours?|\d+\.?\d*h` applied to
the original text with `re.IGNORECASE`.  For these patterns the greedy
run-based matcher below is equivalent to the backtracking engine: the
character classes of adjacent quantified pieces are disjoint, so no
shorter choice of a greedy quantifier can ever enable a later piece. -/

/-- Match `\d+\.?\d*` at the head of `cs`; returns the matched
characters and the remainder. -/
def matchNumber (cs : List Char) : Option (List Char × List Char) :=
  let ds := cs.takeWhile Char.isDigit
  let r1 := cs.dropWhile Char.isDigit
  if ds.isEmpty then none
  else
    match r1 with
    | '.' :: r2 =>
      some (ds ++ '.' :: r2.takeWhile Char.isDigit, r2.dropWhile Char.isDigit)
    | _ => some (ds, r1)

/-- The rational value of a matched number (`float(...)` on a
`\d+\.?\d*` literal, modelled exactly). -/
def ratOfNumber (num : List Char) : ℚ :=
  let ip := num.takeWhile (fun c => c ≠ '.')
  match num.dropWhile (fun c => c ≠ '.') with
  | '.' :: fp => mkRat (natOfDigits ip * 10 ^ fp.length + natOfDigits fp) (10 ^ fp.length)
  | _ => (natOfDigits ip : ℚ)

/-- Try the search pattern anchored at the head of the (lowered) text;
`(hours?|h)` succeeds exactly when the character after `\s*` is `h`.
Returns capture group 1. -/
def matchHoursAt (cs : List Char) : Option (List Char) :=
  match matchNumber cs with
  | none => none
  | some (num, r1) =>
    match r1.dropWhile pyIsSpace with
    | 'h' :: _ => some num
    | _ => none

/-- `re.search` for the hours pattern: first position (left to right)
where the anchored match succeeds. -/
def searchHours : List Char → Option (List Char)
  | [] => none
  | c :: cs =>
    match matchHoursAt (c :: cs) with
    | some num => some num
    | none => searchHours cs

/-- Try the removal pattern `\d+\.?\d*\s*hours?|\d+\.?\d*h` anchored at
the head of the original text (case-insensitive); returns the remainder
after the match.  The first alternative is tried first, as in `re`. -/
def matchRemovalAt (cs : List Char) : Option (List Char) :=
  match matchNumber cs with
  | none => none
  | some (_, r1) =>
    match stripCI ['h', 'o', 'u', 'r'] (r1.dropWhile pyIsSpace) with
    | some rest =>
      some (match stripCI ['s'] rest with
            | some r2 => r2
            | none => rest)
    | none =>
      match stripCI ['h'] r1 with
      | some rest => some rest
      | none => none

/-- `re.sub(..., '')`: delete every non-overlapping leftmost match,
resuming after each match (fuel = length of the list). -/
def removeHoursAux : Nat → List Char → List Char
  | 0, cs => cs
  | _ + 1, [] => []
  | n + 1, c :: cs =>
    match matchRemovalAt (c :: cs) with
    | some rest => removeHoursAux n rest
    | none => c :: removeHoursAux n cs

/-- The hour-extraction step of `handle_message`
(`pdf_generator.py` lines 268-280): returns the extracted hours (if
any) and the activity description.  When nothing matches, the
description is the untouched input text. -/
def extractHours (text : String) : Option ℚ × String :=
  match searchHours (lowerStr text).data with
  | none => (none, text)
  | some num =>
    (some (ratOfNumber num),
     String.mk (pyStripList (removeHoursAux text.data.length text.data)))

/-! ### Date parsing (`datetime.strptime` with the formats the bot uses) -/

/-- A digit-group check: nonempty, all digits, at most `w` characters
(the `strptime` directives `%m` and `%d` consume 1 or 2 digits; the
whole string must be consumed, and the numeric value is range-checked
afterwards like `strptime` does). -/
def digitGroup (w : Nat) (cs : List Char) : Bool :=
  !cs.isEmpty && cs.length ≤ w && cs.all Char.isDigit

/-- The `strptime` directive `%Y`: exactly four digits. -/
def yearGroup (cs : List Char) : Bool :=
  cs.length = 4 && cs.all Char.isDigit

/-- `datetime.strptime(text, '%Y-%m-%d')`, returning the ordinal. -/
def parseISO (s : String) : Option Int :=
  match splitOnChar '-' s.data with
  | [yc, mc, dc] =>
    if yearGroup yc && digitGroup 2 mc && digitGroup 2 dc then
      let y := natOfDigits yc
      let m := natOfDigits mc
      let d := natOfDigits dc
      if validYMD y m d then some (rataDie y m d : Int) else none
    else none
  | _ => none

/-- `datetime.strptime(text, '%m/%d/%Y')`, returning the ordinal. -/
def parseMDY (s : String) : Option Int :=
  match splitOnChar '/' s.data with
  | [mc, dc, yc] =>
    if digitGroup 2 mc && digitGroup 2 dc && yearGroup yc then
      let y := natOfDigits yc
      let m := natOfDigits mc
      let d := natOfDigits dc
      if validYMD y m d then some (rataDie y m d : Int) else none
    else none
  | _ => none

/-- `datetime.strptime(f"{text}/{current_year}", '%m/%d/%Y')`
(`pdf_generator.py` lines 689-691): the `MM/DD` fallback. -/
def parseMD (s : String) (current_year : Nat) : Option Int :=
  parseMDY (s ++ "/" ++ toString current_year)

/-! ### Single-date backlog flow (`TimesheetBot.process_backlog_entry`,
`pdf_generator.py` lines 337-384)

`now` models `datetime.now()`; a parsed date compares as a midnight
`datetime` of the same day. -/

/-- The `user_data` flags consulted by the single-date backlog flow. -/
structure EntryState where
  backlogMode : Bool
  enteringBacklogActivity : Bool
  backlogDate : Option Int
deriving DecidableEq

/-- The distinct replies of `process_backlog_entry`. -/
inductive EntryReply
  | cancelled
  | invalidFormat
  | outOfRange
  | accepted (d : Int)
deriving DecidableEq

def process_backlog_entry (now : PyDateTime) (st : EntryState) (msg : String) :
    EntryState × EntryReply :=
  let text := pyStrip msg
  if lowerStr text = "cancel" then
    ({ st with backlogMode := false }, .cancelled)
  else
    match (parseISO text).orElse (fun _ => parseMDY text) with
    | none => (st, .invalidFormat)
    | some target_date =>
      if dtLt (dtOfDate target_date) (dtSubDays now 60) ||
          dtLt now (dtOfDate target_date) then
        (st, .outOfRange)
      else
        ({ backlogMode := false, enteringBacklogActivity := true
           backlogDate := some target_date }, .accepted target_date)

/-! ### Day-token extraction and the bulk-backlog-week flow
(`TimesheetBot.process_backlog_week`, `pdf_generator.py` lines 636-853) -/

/-- The `day_map` dict (`pdf_generator.py` lines 747-753), in insertion
order. -/
def day_map : List (String × String) :=
  [("monday", "Monday"), ("mon", "Monday"), ("m", "Monday"),
   ("tuesday", "Tuesday"), ("tue", "Tuesday"), ("tues", "Tuesday"), ("t", "Tuesday"),
   ("wednesday", "Wednesday"), ("wed", "Wednesday"), ("w", "Wednesday"),
   ("thursday", "Thursday"), ("thu", "Thursday"), ("thur", "Thursday"), ("th", "Thursday"),
   ("friday", "Friday"), ("fri", "Friday"), ("f", "Friday")]

def weekdayNamesMF : List String :=
  ["Monday", "Tuesday", "Wednesday", "Thursday", "Friday"]

/-- The day-selection parsing block of `process_backlog_week`
(`pdf_generator.py` lines 743-764): the "all weekdays" branch fires
whenever the lowered text contains `all` and (`weekday` or `week`) as
substrings; otherwise each `day_map` key is tested for membership among
the whitespace-split tokens (of the text, and of the text with commas
replaced by spaces). -/
def extractDayTokens (text : String) : List String :=
  let text_lower := lowerStr text
  if containsSub "all".data text_lower.data &&
      (containsSub "weekday".data text_lower.data ||
       containsSub "week".data text_lower.data) then
    weekdayNamesMF
  else
    day_map.foldl
      (fun selected kv =>
        if ((pySplit text_lower).contains kv.1 ||
            (pySplit (String.mk (text_lower.data.map
              (fun c => if c = ',' then ' ' else c)))).contains kv.1) &&
           !selected.contains kv.2
        then selected ++ [kv.2] else selected)
      []

/-- `day_to_num` (`pdf_generator.py` lines 813-816). -/
def day_to_num : String → Option Nat
  | "Monday" => some 0 | "Tuesday" => some 1 | "Wednesday" => some 2
  | "Thursday" => some 3 | "Friday" => some 4 | "Saturday" => some 5
  | "Sunday" => some 6 | _ => none

/-- Full month names, lowercase, for `strptime %B` (the input was
lowered before the regex search). -/
def monthFull : List (String × Nat) :=
  [("january", 1), ("february", 2), ("march", 3), ("april", 4),
   ("may", 5), ("june", 6), ("july", 7), ("august", 8),
   ("september", 9), ("october", 10), ("november", 11), ("december", 12)]

/-- Abbreviated month names, lowercase, for `strptime %b`. -/
def monthAbbr : List (String × Nat) :=
  [("jan", 1), ("feb", 2), ("mar", 3), ("apr", 4), ("may", 5), ("jun", 6),
   ("jul", 7), ("aug", 8), ("sep", 9), ("oct", 10), ("nov", 11), ("dec", 12)]

def lookupName : List (String × Nat) → String → Option Nat
  | [], _ => none
  | (k, v) :: t, key => if k = key then some v else lookupName t key

/-- `re.search(r'week of (\w+)\s+(\d+)', text_lower)` anchored at the
head: the literal `week of `, a maximal nonempty word-character run, a
nonempty whitespace run, then digits.  (Word characters and whitespace
are disjoint classes, so the greedy scan equals the backtracking
engine.) -/
def matchWeekOfAt (cs : List Char) : Option (List Char × Nat) :=
  if listLeading "week of ".data cs then
    let r1 := cs.drop 8
    let w := r1.takeWhile (fun c => c.isAlpha || c.isDigit || c = '_')
    let r2 := r1.dropWhile (fun c => c.isAlpha || c.isDigit || c = '_')
    if w.isEmpty then none
    else
      let sp := r2.takeWhile pyIsSpace
      let r3 := r2.dropWhile pyIsSpace
      let ds := r3.takeWhile Char.isDigit
      if sp.isEmpty || ds.isEmpty then none
      else some (w, natOfDigits ds)
  else none

/-- `re.search` scan for the `week of` pattern. -/
def searchWeekOf : List Char → Option (List Char × Nat)
  | [] => none
  | c :: cs =>
    match matchWeekOfAt (c :: cs) with
    | some r => some r
    | none => searchWeekOf cs

/-- The natural-language branch of `process_backlog_week`
(`pdf_generator.py` lines 654-676): on a `week of <Month> <Day>` match,
try `%B %d %Y` then `%b %d %Y` with the current year, and move the
parsed date back to its Monday. -/
def parseWeekOfNatural (current_year : Nat) (text_lower : List Char) :
    Option Int :=
  match searchWeekOf text_lower with
  | none => none
  | some (w, day) =>
    let name := String.mk w
    let viaName : Option Nat :=
      match lookupName monthFull name with
      | some m =>
        if validYMD current_year m day then some (rataDie current_year m day)
        else none
      | none => none
    let viaAbbr : Option Nat :=
      match viaName with
      | some rd => some rd
      | none =>
        match lookupName monthAbbr name with
        | some m =>
          if validYMD current_year m day then some (rataDie current_year m day)
          else none
        | none => none
    viaAbbr.map (fun rd => (rd : Int) - pyWeekday (rd : Int))

/-- The `user_data` fields of the bulk-backlog-week flow:
`backlog_week_mode`, `backlog_week_start`, `backlog_days_worked`. -/
structure BulkState where
  mode : Bool
  start : Option Int
  days : Option (List String)
deriving DecidableEq

/-- The distinct replies of `process_backlog_week`. -/
inductive BulkReply
  | cancelled
  | invalidDate
  | outOfRange
  | askDays (monday : Int)
  | daysNotRecognized
  | askActivity (days : List String)
  | logged (dates : List Int)
deriving DecidableEq

/-- `TimesheetBot.process_backlog_week` (`pdf_generator.py` lines
636-853).  The three phases are keyed on the presence of
`backlog_week_start` and `backlog_days_worked`, exactly as in the
source; the `'cancel'` test at the top covers the (unreachable)
repeated cancel checks inside the later phases. -/
def process_backlog_week (now : PyDateTime) (st : BulkState) (store : Store)
    (msg : String) : BulkState × Store × BulkReply :=
  let text := pyStrip msg
  if lowerStr text = "cancel" then
    (⟨false, none, none⟩, store, .cancelled)
  else
    match st.start with
    | none =>
      let text_lower := lowerStr text
      let monday_natural : Option Int :=
        parseWeekOfNatural (yearOfOrdinal now.day.toNat) text_lower.data
      let monday_date : Option Int :=
        match monday_natural with
        | some m => some m
        | none =>
          match (parseISO text).orElse (fun _ =>
                  (parseMDY text).orElse (fun _ =>
                    parseMD text (yearOfOrdinal now.day.toNat))) with
          | none => none
          | some d =>
            some (if pyWeekday d ≠ 0 then d - pyWeekday d else d)
      match monday_date with
      | none => (st, store, .invalidDate)
      | some monday =>
        if dtLt (dtOfDate monday) (dtSubDays now 60) ||
            dtLt now (dtOfDate monday) then
          (st, store, .outOfRange)
        else
          ({ st with start := some monday }, store, .askDays monday)
    | some week_start =>
      match st.days with
      | none =>
        let selected_days := extractDayTokens text
        if selected_days.isEmpty then (st, store, .daysNotRecognized)
        else ({ st with days := some selected_days }, store,
              .askActivity selected_days)
      | some selected_days =>
        let week_key := week_start
        let week0 := (getA store week_key).getD []
        let step := fun (acc : WeekRecord × List Int) (day_name : String) =>
          match day_to_num day_name with
          | none => acc
          | some day_num =>
            let date := week_start + (day_num : Int)
            let bucket := (getA acc.1 date).getD []
            (setA acc.1 date
              (bucket ++ [⟨text, now, some 3⟩]), acc.2 ++ [date])
        let result := selected_days.foldl step (week0, [])
        (⟨false, none, none⟩, setA store week_key result.1,
         .logged result.2)

/-! ### Timesheet assembly and generation

`TimesheetManager.generate_timesheet` (`app.py` lines 194-249) and
`TimesheetBot.generate_timesheet` (`pdf_generator.py` lines 1233-1303).
The summarizer collaborator (`generate_ai_summary`) and the renderer
collaborator (`create_timesheet`) are passed in as `Except`-valued
results (`.error e` models a raised exception with message `e`). -/

/-- One row of the `daily_entries` list; the display-only `day` label
is elided and the date is kept as an ordinal. -/
structure DailyEntry where
  date : Int
  time_in : String
  time_out : String
  mentor_initials : String
deriving DecidableEq

/-- One iteration of the daily-entries loop (`app.py` lines 221-241):
`none` when the date is absent or its bucket is empty
(`if date in week_data and week_data[date]`), otherwise a row carrying
the fixed 2:30 PM / 5:30 PM convention exactly when the day's total
hours are positive. -/
def dayRow (week_data : WeekRecord) (date : Int) : Option DailyEntry :=
  match getA week_data date with
  | none => none
  | some bucket =>
    if bucket.isEmpty then none
    else
      let total_hours := sumHours bucket
      some { date := date
             time_in := if total_hours > 0 then "2:30 PM" else ""
             time_out := if total_hours > 0 then "5:30 PM" else ""
             mentor_initials := "" }

/-- The daily-entries loop (`app.py` lines 220-241, identically
`pdf_generator.py` lines 1260-1283): one row per week date that is
present with a nonempty bucket. -/
def mkDailyEntries (week_data : WeekRecord) (week_key : Int) :
    List DailyEntry :=
  (weekDates week_key).filterMap (dayRow week_data)

/-- The document model handed to the renderer collaborator
(`timesheet_data`); `student_name`/`gt_id` config fields are elided. -/
structure TimesheetData where
  week_start : Int
  daily_entries : List DailyEntry
  weekly_summary : String
deriving DecidableEq

/-- The fallback sentence of `app.py` line 209. -/
def fallbackSummary : String := "Weekly lab activities completed as scheduled."

/-- `TimesheetManager.generate_timesheet` (`app.py` lines 194-249):
returns the produced document (in place of the output path) and the
summary, or `none` and an error text.  The summarizer exception is
caught by the inner `try` and replaced by the fallback sentence; a
renderer exception is caught by the outer `try` and returned as the
error text. -/
def app_generate_timesheet (store : Store) (week_key : Int)
    (summarizer : Except String String) (renderer : Except String Unit) :
    Option TimesheetData × String :=
  match getA store week_key with
  | none => (none, "No activities logged for this week")
  | some week_data =>
    if week_data.isEmpty then (none, "No activities logged for this week")
    else
      let summary :=
        match summarizer with
        | .ok s => s
        | .error _ => fallbackSummary
      let timesheet_data : TimesheetData :=
        ⟨week_key, mkDailyEntries week_data week_key, summary⟩
      match renderer with
      | .ok _ => (some timesheet_data, summary)
      | .error e => (none, e)

/-- The distinct outcomes of the bot's generate action. -/
inductive BotGenReply
  | noActivities
  | generated (doc : TimesheetData) (summary : String)
  | errorReply (msg : String)
deriving DecidableEq

/-- `TimesheetBot.generate_timesheet` (`pdf_generator.py` lines
1233-1303), for the week of `today`.  The summarizer call and the
renderer call both sit inside the single `try` block, so an exception
from either one aborts the action with the error reply of line 1303. -/
def bot_generate_timesheet (store : Store) (today : Int)
    (summarizer : Except String String) (renderer : Except String Unit) :
    BotGenReply :=
  let week_key := weekKeyOf today
  match getA store week_key with
  | none => .noActivities
  | some week_data =>
    if week_data.isEmpty then .noActivities
    else
      match summarizer with
      | .error e => .errorReply e
      | .ok summary =>
        let timesheet_data : TimesheetData :=
          ⟨week_key, mkDailyEntries week_data week_key, summary⟩
        match renderer with
        | .error e => .errorReply e
        | .ok _ => .generated timesheet_data summary

/-! ## Helper lemmas -/

lemma getA_setA_self {β : Type} (m : List (Int × β)) (k : Int) (v : β) :
    getA (setA m k v) k = some v := by
  induction m with
  | nil => simp [setA, getA]
  | cons hd t ih =>
    obtain ⟨a, b⟩ := hd
    by_cases hk : a = k
    · simp [setA, getA, hk]
    · simp [setA, getA, hk, ih]

lemma pyWeekday_nonneg (d : Int) : 0 ≤ pyWeekday d := by
  unfold pyWeekday; omega

lemma pyWeekday_lt_seven (d : Int) : pyWeekday d < 7 := by
  unfold pyWeekday; omega

lemma weekDates_eq (k : Int) :
    weekDates k = [k, k + 1, k + 2, k + 3, k + 4, k + 5, k + 6] := by
  simp [weekDates, List.range_succ]

lemma self_mem_weekDates (d : Int) : d ∈ weekDates (weekKeyOf d) := by
  have h1 := pyWeekday_nonneg d
  have h2 := pyWeekday_lt_seven d
  rw [weekDates_eq]
  unfold weekKeyOf
  simp
  omega

/-- The day bucket of `d` after `add_activity`, as seen by `get_week_data`. -/
lemma add_activity_locates (store : Store) (d : Int) (txt : String)
    (hours : Option ℚ) (now : PyDateTime) :
    ∃ day ∈ get_week_data (add_activity store d txt hours now) (weekKeyOf d),
      day.date = d ∧
      day.activities =
        ((getA ((getA store (weekKeyOf d)).getD []) d).getD []) ++
          [⟨txt, now, storedHours hours⟩] := by
  unfold add_activity get_week_data
  simp only [getA_setA_self, Option.getD_some]
  refine ⟨_, List.mem_map_of_mem _ (self_mem_weekDates d), rfl, ?_⟩
  simp [getA_setA_self]

lemma isEmpty_eq_false_of_ne_nil {α : Type} {l : List α} (h : l ≠ []) :
    l.isEmpty = false := by
  cases l with
  | nil => exact absurd rfl h
  | cons a t => rfl

lemma sumHours_append_entry (b : DayBucket) (e : ActivityEntry) :
    sumHours (b ++ [e]) = sumHours b + e.hours.getD 0 := by
  simp [sumHours]

/-! ## Claims -/

/-- C7: for every date `d` (as an ordinal), the week key computed for
`d` (the subtraction `target_date - timedelta(days=target_date.weekday())`
of `add_activity`) is a Monday, and `d` is among the 7 ordered dates
Monday..Sunday returned by `get_week_dates` for that key. -/
theorem weekKey_is_monday_and_covers (d : Int) :
    pyWeekday (weekKeyOf d) = 0 ∧ d ∈ weekDates (weekKeyOf d) := by
  constructor
  · simp only [weekKeyOf, pyWeekday]; omega
  · exact self_mem_weekDates d

/-- C3: after `add_activity date desc hours` the week view
`get_week_data` of the week containing `date` lists a day for that very
date whose last activity entry carries exactly the given description,
and whose hours read back (missing key defaulting to 0, as everywhere
in the source) equal the given hours, an omitted value counting as 0.
The quantification over `hours : Option ℚ` includes `none` (argument
omitted, Python `None`) and `some 0`. -/
theorem addActivity_getWeek_roundtrip (store : Store) (d : Int)
    (desc : String) (hours : Option ℚ) (now : PyDateTime) :
    ∃ day ∈ get_week_data (add_activity store d desc hours now) (weekKeyOf d),
      day.date = d ∧
      ∃ e, day.activities.getLast? = some e ∧
        e.activity = desc ∧ e.hours.getD 0 = hours.getD 0 := by
  obtain ⟨day, hmem, hdate, hacts⟩ :=
    add_activity_locates store d desc hours now
  refine ⟨day, hmem, hdate, ⟨⟨desc, now, storedHours hours⟩, ?_, rfl, ?_⟩⟩
  · rw [hacts]; exact List.getLast?_concat _
  · cases hours with
    | none => rfl
    | some h => by_cases h0 : h = 0 <;> simp [storedHours, h0]

/-- C9: `delete_activity` on a missing week key, a missing date, or an
out-of-range index returns `False` and leaves the store unchanged (it
is a total function of the store, so no exception can escape). -/
theorem deleteActivity_missing_is_noop (store : Store) (week_key d i : Int)
    (h : ¬ ∃ week bucket, getA store week_key = some week ∧
        getA week d = some bucket ∧ 0 ≤ i ∧ i < (bucket.length : Int)) :
    delete_activity store week_key d i = (false, store) := by
  rcases hw : getA store week_key with _ | week
  · simp only [delete_activity, hw]
  · rcases hd : getA week d with _ | bucket
    · simp only [delete_activity, hw, hd]
    · simp only [delete_activity, hw, hd]
      rw [if_neg]
      intro hc
      exact h ⟨week, bucket, hw, hd, hc⟩

/-- Witness for C9: deleting from the empty store fails and is a no-op. -/
theorem deleteActivity_missing_is_noop_witness :
    delete_activity [] 0 0 0 = (false, []) :=
  deleteActivity_missing_is_noop [] 0 0 0 (by
    rintro ⟨week, bucket, hw, -⟩
    simp [getA] at hw)

/-- C10: `add_activity` writes the `'hours'` key only when the value is
truthy: `hours = 0` produces the same store as an omitted `hours`
argument (so an explicit zero is indistinguishable from omission), the
entry carries no hours field at all, and such an entry contributes 0 to
a bucket's total hours. -/
theorem addActivity_zero_hours_omitted (store : Store) (d : Int)
    (desc : String) (now : PyDateTime) (b : DayBucket) :
    add_activity store d desc (some 0) now =
      add_activity store d desc none now ∧
    storedHours (some 0) = none ∧
    sumHours (b ++ [⟨desc, now, none⟩]) = sumHours b ∧
    (∃ day ∈ get_week_data (add_activity store d desc (some 0) now)
        (weekKeyOf d),
      day.date = d ∧
      day.activities =
        ((getA ((getA store (weekKeyOf d)).getD []) d).getD []) ++
          [⟨desc, now, none⟩]) := by
  refine ⟨by simp [add_activity, storedHours], rfl, ?_, ?_⟩
  · simp [sumHours]
  · have h := add_activity_locates store d desc (some 0) now
    simpa [storedHours] using h

/-! ## C6: the 60-day backlog window -/

lemma splitOnAux_no_sep (sep : Char) (cs : List Char) (h : sep ∉ cs) :
    ∀ acc, splitOnAux sep cs acc = [acc.reverse ++ cs] := by
  induction cs with
  | nil => intro acc; simp [splitOnAux]
  | cons c t ih =>
    intro acc
    have hc : ¬ c = sep := by
      rintro rfl; exact h (List.mem_cons_self _ _)
    have ht : sep ∉ t := fun hm => h (List.mem_cons_of_mem _ hm)
    simp only [splitOnAux, if_neg hc, ih ht]
    simp

lemma parseISO_none_of_no_dash (s : String) (h : ('-') ∉ s.data) :
    parseISO s = none := by
  unfold parseISO splitOnChar
  rw [splitOnAux_no_sep _ _ h]

lemma parseMDY_none_of_no_slash (s : String) (h : ('/') ∉ s.data) :
    parseMDY s = none := by
  unfold parseMDY splitOnChar
  rw [splitOnAux_no_sep _ _ h]

/-- A character that is its own lowercase and does not occur in
`lowerStr t` does not occur in `t`. -/
lemma not_mem_of_lower_eq (t res : String) (c : Char)
    (hself : Char.toLower c = c) (hnot : c ∉ res.data)
    (h : lowerStr t = res) : c ∉ t.data := by
  intro hmem
  apply hnot
  rw [← h]
  show c ∈ List.map Char.toLower t.data
  exact List.mem_map.mpr ⟨c, hmem, hself⟩

/-- A message whose lowered, stripped text is the cancel keyword cannot
parse as a date (both date formats need a separator the word lacks). -/
lemma parse_of_cancel_eq_none (t : String) (h : lowerStr t = "cancel") :
    (parseISO t).orElse (fun _ => parseMDY t) = none := by
  have h1 : ('-') ∉ t.data :=
    not_mem_of_lower_eq t "cancel" ('-') (by decide) (by decide) h
  have h2 : ('/') ∉ t.data :=
    not_mem_of_lower_eq t "cancel" ('/') (by decide) (by decide) h
  rw [parseISO_none_of_no_dash t h1, parseMDY_none_of_no_slash t h2]
  rfl

/-- `datetime.now()` for the concrete scenario instances: noon-ish
(half a day in) on 2026-10-12. -/
def exampleOctNow : PyDateTime := ⟨(rataDie 2026 10 12 : Int), mkRat 1 2⟩

/-- C6: in `AwaitingBacklogDate` (`backlog_mode`), a successfully
parsed date that is older than 60 days before `now` or in the future is
answered with the out-of-range reply — a constructor distinct from the
parse-failure reply — while the state is returned unchanged (mode kept,
no date stored).  Concretely (taking now = 2026-10-12): 2026-10-10
(2 days before today) is accepted, while 2026-08-12 (61 days before
today) and 2026-10-13 (tomorrow) are both rejected as out of range. -/
theorem backlogDate_window_enforced :
    (∀ (now : PyDateTime) (st : EntryState) (msg : String) (d : Int),
      (parseISO (pyStrip msg)).orElse (fun _ => parseMDY (pyStrip msg)) =
        some d →
      (dtLt (dtOfDate d) (dtSubDays now 60) || dtLt now (dtOfDate d)) = true →
      process_backlog_entry now st msg = (st, .outOfRange)) ∧
    EntryReply.outOfRange ≠ EntryReply.invalidFormat ∧
    process_backlog_entry exampleOctNow ⟨true, false, none⟩ "2026-10-10" =
      (⟨false, true, some (rataDie 2026 10 10 : Int)⟩,
       .accepted (rataDie 2026 10 10 : Int)) ∧
    process_backlog_entry exampleOctNow ⟨true, false, none⟩ "2026-08-12" =
      (⟨true, false, none⟩, .outOfRange) ∧
    process_backlog_entry exampleOctNow ⟨true, false, none⟩ "2026-10-13" =
      (⟨true, false, none⟩, .outOfRange) := by
  refine ⟨?_, by decide, by decide, by decide, by decide⟩
  intro now st msg d hp hrange
  have hcan : ¬ lowerStr (pyStrip msg) = "cancel" := by
    intro hc
    rw [parse_of_cancel_eq_none _ hc] at hp
    exact Option.noConfusion hp
  simp only [process_backlog_entry]
  rw [if_neg hcan]
  simp only [hp]
  rw [if_pos hrange]

/-- Witness for C6, instantiating the general rejection clause at the
61-days-old concrete input. -/
theorem backlogDate_window_enforced_witness :
    process_backlog_entry exampleOctNow ⟨true, false, none⟩ "2026-08-12" =
      (⟨true, false, none⟩, EntryReply.outOfRange) :=
  backlogDate_window_enforced.1 exampleOctNow ⟨true, false, none⟩
    "2026-08-12" (rataDie 2026 8 12 : Int) (by decide) (by decide)

/-! ## C1: summarizer failure during timesheet generation -/

/-- C1 counterexample: in the bot (`pdf_generator.py` lines 1246-1303)
the summarizer call sits inside the same `try` as the rest of the
generate action, so a summarizer failure on a week with activities
aborts the action with the error reply — no document is produced and no
fallback sentence is used. -/
theorem botGenerate_summarizer_failure_aborts :
    bot_generate_timesheet [(1, [(1, [⟨"Ran gels", ⟨1, 0⟩, some 2⟩])])] 1
      (.error "summarizer down") (.ok ()) =
      .errorReply "summarizer down" := by
  decide

/-- C1 amended: in the web app manager (`app.py` lines 203-209) a
summarizer failure on a nonempty week is masked — generation completes
(renderer permitting) and the weekly summary placed in the produced
document is the fixed fallback sentence; in the bot
(`pdf_generator.py` lines 1246-1303) the same failure aborts the
generate action with an error reply instead. -/
theorem summarizer_failure_fallback (store : Store) (week_key : Int)
    (week_data : WeekRecord) (e : String)
    (hw : getA store week_key = some week_data) (hne : week_data ≠ []) :
    (app_generate_timesheet store week_key (.error e) (.ok ()) =
      (some ⟨week_key, mkDailyEntries week_data week_key, fallbackSummary⟩,
       fallbackSummary)) ∧
    (∀ (today : Int) (renderer : Except String Unit),
      weekKeyOf today = week_key →
      bot_generate_timesheet store today (.error e) renderer =
        .errorReply e) := by
  have hie := isEmpty_eq_false_of_ne_nil hne
  constructor
  · simp [app_generate_timesheet, hw, hie]
  · intro today renderer ht
    simp [bot_generate_timesheet, ht, hw, hie]

/-- Witness for C1's amended theorem at a one-activity week. -/
theorem summarizer_failure_fallback_witness :
    app_generate_timesheet [(1, [(1, [⟨"Cultured cells", ⟨1, 0⟩, some 4⟩])])]
      1 (.error "api timeout") (.ok ()) =
      (some ⟨1, mkDailyEntries [(1, [⟨"Cultured cells", ⟨1, 0⟩, some 4⟩])] 1,
            fallbackSummary⟩, fallbackSummary) ∧
    bot_generate_timesheet [(1, [(1, [⟨"Cultured cells", ⟨1, 0⟩, some 4⟩])])]
      1 (.error "api timeout") (.ok ()) = .errorReply "api timeout" := by
  have h := summarizer_failure_fallback
    [(1, [(1, [⟨"Cultured cells", ⟨1, 0⟩, some 4⟩])])] 1
    [(1, [⟨"Cultured cells", ⟨1, 0⟩, some 4⟩])] "api timeout"
    (by decide) (by decide)
  exact ⟨h.1, h.2 1 (.ok ()) (by decide)⟩

/-! ## C2: day rows of the assembled timesheet -/

lemma dayRow_eq_some (wd : WeekRecord) (x : Int) (row : DailyEntry) :
    dayRow wd x = some row ↔
      ∃ bucket, getA wd x = some bucket ∧ bucket ≠ [] ∧
        row = ⟨x, if sumHours bucket > 0 then "2:30 PM" else "",
               if sumHours bucket > 0 then "5:30 PM" else "", ""⟩ := by
  rcases hx : getA wd x with _ | bucket
  · simp [dayRow, hx]
  · by_cases hb : bucket = []
    · subst hb
      simp [dayRow, hx]
    · simp [dayRow, hx, isEmpty_eq_false_of_ne_nil hb, hb, eq_comm]

/-- C2 counterexample: a week record with activities on a single day
assembles to one day row, not seven.  (The loop of `app.py` lines
221-241 skips every date with no activities.) -/
theorem assembledWeek_rows_not_seven :
    ((app_generate_timesheet [(0, [(0, [⟨"Gel prep", ⟨0, 0⟩, some 2⟩])])] 0
        (.ok "summary") (.ok ())).1.map
      (fun doc => doc.daily_entries.length) = some 1) ∧
    ((app_generate_timesheet [(0, [(0, [⟨"Gel prep", ⟨0, 0⟩, some 2⟩])])] 0
        (.ok "summary") (.ok ())).1.map
      (fun doc => doc.daily_entries.length) ≠ some 7) := by
  constructor <;> with_unfolding_all decide

/-- C2 amended: for each of the 7 week dates, the assembled timesheet
has a day row for that date exactly when the date has a nonempty
activity bucket (a day with no activities yields no row at all); a row
carries the fixed 2:30 PM / 5:30 PM convention exactly when the day's
total logged hours are positive, and blank time fields exactly
otherwise — in particular a day whose activities total zero hours still
appears, with blank time fields. -/
theorem dailyRows_iff_nonempty_bucket (wd : WeekRecord) (k d : Int)
    (hd : d ∈ weekDates k) :
    ((∃ row ∈ mkDailyEntries wd k, row.date = d) ↔
      (getA wd d).getD [] ≠ []) ∧
    (∀ row ∈ mkDailyEntries wd k, row.date = d →
      ((row.time_in = "2:30 PM" ∧ row.time_out = "5:30 PM") ↔
        0 < sumHours ((getA wd d).getD []))) ∧
    (∀ row ∈ mkDailyEntries wd k, row.date = d →
      ((row.time_in = "" ∧ row.time_out = "") ↔
        ¬ 0 < sumHours ((getA wd d).getD []))) := by
  refine ⟨⟨?_, ?_⟩, ?_, ?_⟩
  · rintro ⟨row, hrow, hdate⟩
    obtain ⟨x, hxmem, hxr⟩ := List.mem_filterMap.mp hrow
    obtain ⟨bucket, hbx, hbne, hroweq⟩ := (dayRow_eq_some wd x row).mp hxr
    subst hroweq
    have hxd : x = d := hdate
    subst hxd
    rw [hbx]
    simpa using hbne
  · intro hne
    rcases hx : getA wd d with _ | bucket
    · rw [hx] at hne; simp at hne
    · rw [hx] at hne
      simp only [Option.getD_some] at hne
      refine ⟨⟨d, if sumHours bucket > 0 then "2:30 PM" else "",
               if sumHours bucket > 0 then "5:30 PM" else "", ""⟩, ?_, rfl⟩
      exact List.mem_filterMap.mpr
        ⟨d, hd, (dayRow_eq_some wd d _).mpr ⟨bucket, hx, hne, rfl⟩⟩
  · intro row hrow hdate
    obtain ⟨x, hxmem, hxr⟩ := List.mem_filterMap.mp hrow
    obtain ⟨bucket, hbx, hbne, hroweq⟩ := (dayRow_eq_some wd x row).mp hxr
    subst hroweq
    have hxd : x = d := hdate
    subst hxd
    rw [hbx]
    simp only [Option.getD_some]
    by_cases hpos : 0 < sumHours bucket <;> simp [hpos]
  · intro row hrow hdate
    obtain ⟨x, hxmem, hxr⟩ := List.mem_filterMap.mp hrow
    obtain ⟨bucket, hbx, hbne, hroweq⟩ := (dayRow_eq_some wd x row).mp hxr
    subst hroweq
    have hxd : x = d := hdate
    subst hxd
    rw [hbx]
    simp only [Option.getD_some]
    by_cases hpos : 0 < sumHours bucket <;> simp [hpos]

/-- A week record with a single zero-hours activity on its Monday, for
the C2 witness. -/
def obsWeek : WeekRecord := [(0, [⟨"Observation only", ⟨0, 0⟩, none⟩])]

/-- Witness for C2's amended theorem: a day whose single activity has
no logged hours (total 0) still yields a row, and that row has blank
time fields. -/
theorem dailyRows_iff_nonempty_bucket_witness :
    ((∃ row ∈ mkDailyEntries obsWeek 0, row.date = 0) ↔
      (getA obsWeek 0).getD [] ≠ []) ∧
    (∀ row ∈ mkDailyEntries obsWeek 0, row.date = 0 →
      ((row.time_in = "" ∧ row.time_out = "") ↔
        ¬ 0 < sumHours ((getA obsWeek 0).getD []))) := by
  have h := dailyRows_iff_nonempty_bucket obsWeek 0 0 (by decide)
  exact ⟨h.1, h.2.2⟩

/-! ## C4: hour extraction from free text -/

/-- C4 counterexample: on `"Did experiments 3 h"` the search regex
matches (`\s*` allows the blank before the bare `h`), so hours 3 are
extracted, but neither alternative of the removal regex matches
(`\d+\.?\d*\s*hours?` needs the word `hour`, `\d+\.?\d*h` allows no
blank), so the token `3 h` is left inside the returned description
instead of being removed. -/
theorem extractHours_bare_h_not_removed :
    extractHours "Did experiments 3 h" = (some 3, "Did experiments 3 h") ∧
    (extractHours "Did experiments 3 h").2 ≠ "Did experiments" := by
  constructor <;> decide

/-- C4 amended: hour extraction matches a number followed (possibly
after whitespace) by `hour`, `hours` or `h`, case-insensitively; the
earliest match determines the value; phrasings whose unit is `hour(s)`
(any spacing) or an `h` attached directly to the number are removed and
the remainder trimmed, but a bare `h` separated from its number by
whitespace is left in the description.  The spec's own example holds
verbatim, with hours 3.5 = 7/2. -/
theorem extractHours_examples :
    extractHours "Ran PCR samples and analyzed gel results. 3.5 hours" =
      (some (mkRat 7 2), "Ran PCR samples and analyzed gel results.") ∧
    (3.5 : ℚ) = mkRat 7 2 ∧
    extractHours "2 hours then 3.5h later" = (some 2, "then  later") ∧
    extractHours "Did experiments 3 h" = (some 3, "Did experiments 3 h") := by
  refine ⟨by decide, by with_unfolding_all decide, by decide, by decide⟩

/-! ## C5: the bulk-backlog-week scenario -/

/-- Ordinal of a January 2026 date. -/
def jan2026 (d : Nat) : Int := (rataDie 2026 1 d : Int)

/-- `datetime.now()` for the bulk-backlog scenario: 2026-01-20, so the
week in question lies inside the 60-day backlog window. -/
def bulkExampleNow : PyDateTime := ⟨jan2026 20, 0⟩

/-- C5 counterexample: 2026-01-06 is a Tuesday, not a Monday (its
`weekday()` is 1), so `process_backlog_week` normalizes it to the
Monday 2026-01-05 of its week; after the full scenario the activities
sit on January 5, 7 and 9 — the bucket for January 6 does not even
exist. -/
theorem bulkBacklog_jan6_normalized_to_jan5 :
    pyWeekday (jan2026 6) = 1 ∧
    (process_backlog_week bulkExampleNow ⟨true, none, none⟩ []
        "2026-01-06").1.start = some (jan2026 5) ∧
    jan2026 5 ≠ jan2026 6 ∧
    (process_backlog_week bulkExampleNow
        ⟨true, some (jan2026 5), some ["Monday", "Wednesday", "Friday"]⟩ []
        "Lab work").2.2 = .logged [jan2026 5, jan2026 7, jan2026 9] ∧
    getA ((getA (process_backlog_week bulkExampleNow
        ⟨true, some (jan2026 5), some ["Monday", "Wednesday", "Friday"]⟩ []
        "Lab work").2.1 (jan2026 5)).getD []) (jan2026 6) = none := by
  refine ⟨by decide, by decide, by decide, by decide, by decide⟩

/-- C5 amended: from `AwaitingBulkWeekDate`, receiving `"2026-01-06"`
(a Tuesday inside the 60-day window) stores the Monday of that week,
2026-01-05, and moves to `AwaitingBulkWeekDays`; `"mon wed fri"` stores
Monday, Wednesday and Friday and moves to `AwaitingBulkWeekActivity`;
`"Lab work"` then creates exactly three activities — on 2026-01-05,
2026-01-07 and 2026-01-09 — each with the given description and hours
fixed at 3.0, and the mode resets to idle with both pending fields
cleared. -/
theorem bulkBacklog_week_scenario :
    process_backlog_week bulkExampleNow ⟨true, none, none⟩ [] "2026-01-06" =
      (⟨true, some (jan2026 5), none⟩, [], .askDays (jan2026 5)) ∧
    process_backlog_week bulkExampleNow ⟨true, some (jan2026 5), none⟩ []
        "mon wed fri" =
      (⟨true, some (jan2026 5), some ["Monday", "Wednesday", "Friday"]⟩, [],
       .askActivity ["Monday", "Wednesday", "Friday"]) ∧
    process_backlog_week bulkExampleNow
        ⟨true, some (jan2026 5), some ["Monday", "Wednesday", "Friday"]⟩ []
        "Lab work" =
      (⟨false, none, none⟩,
       [(jan2026 5,
         [(jan2026 5, [⟨"Lab work", bulkExampleNow, some 3⟩]),
          (jan2026 7, [⟨"Lab work", bulkExampleNow, some 3⟩]),
          (jan2026 9, [⟨"Lab work", bulkExampleNow, some 3⟩])])],
       .logged [jan2026 5, jan2026 7, jan2026 9]) := by
  refine ⟨by decide, by decide, by decide⟩

/-! ## C8: day-token extraction -/

/-- Day-token extraction as the spec words it (§4.3), for comparison
with the implementation: full weekday names, 3-letter abbreviations and
the single-letter shorthands `m`, `t`, `w`, `th`, `f`, matched
token-by-token against the whitespace/comma-split input, plus the exact
phrase `all weekdays` for Monday..Friday; the empty set when nothing is
recognized. -/
def specExtractDayTokens (text : String) : List String :=
  let text_lower := lowerStr text
  if containsSub "all weekdays".data text_lower.data then weekdayNamesMF
  else
    [("monday", "Monday"), ("mon", "Monday"), ("m", "Monday"),
     ("tuesday", "Tuesday"), ("tue", "Tuesday"), ("t", "Tuesday"),
     ("wednesday", "Wednesday"), ("wed", "Wednesday"), ("w", "Wednesday"),
     ("thursday", "Thursday"), ("thu", "Thursday"), ("th", "Thursday"),
     ("friday", "Friday"), ("fri", "Friday"), ("f", "Friday")].foldl
      (fun selected kv =>
        if (pySplit (String.mk (text_lower.data.map
              (fun c => if c = ',' then ' ' else c)))).contains kv.1 &&
           !selected.contains kv.2
        then selected ++ [kv.2] else selected)
      []

/-- C8 counterexample: the implementation tests `all`, `weekday` and
`week` as *substrings* of the whole text, so `"call next week"`
(`all` inside `call`, plus the word `week`) yields Monday..Friday even
though it contains no day token and not the phrase `all weekdays`,
where the claim requires the empty set. -/
theorem dayTokens_loose_phrase_check :
    specExtractDayTokens "call next week" = [] ∧
    extractDayTokens "call next week" = weekdayNamesMF ∧
    extractDayTokens "call next week" ≠ specExtractDayTokens "call next week" := by
  refine ⟨by decide, by decide, by decide⟩

/-- C8 amended: day-token extraction recognizes full weekday names,
3-letter abbreviations and the single-letter shorthands token-by-token
on whitespace/comma-split input (also `tues`, `thur`), and returns the
empty list when nothing is recognized, which the caller treats as a
parse failure; but the "all weekdays" branch fires whenever the text
merely contains `all` and (`weekday` or `week`) as substrings, not only
on that exact phrase.  In particular `"mon wed fri"` yields Monday,
Wednesday, Friday and `"all weekdays"` yields Monday..Friday. -/
theorem dayTokens_extraction :
    extractDayTokens "mon wed fri" = ["Monday", "Wednesday", "Friday"] ∧
    extractDayTokens "all weekdays" = weekdayNamesMF ∧
    (∀ text : String,
      (containsSub "all".data (lowerStr text).data &&
        (containsSub "weekday".data (lowerStr text).data ||
         containsSub "week".data (lowerStr text).data)) = true →
      extractDayTokens text = weekdayNamesMF) := by
  refine ⟨by decide, by decide, ?_⟩
  intro text h
  simp only [extractDayTokens]
  rw [if_pos h]

/-- Witness for C8's amended theorem, instantiating the loose
substring branch. -/
theorem dayTokens_extraction_witness :
    extractDayTokens "log all week please" = weekdayNamesMF :=
  dayTokens_extraction.2.2 "log all week please" (by decide)

end Timesheet
